import Mathlib

/-!
Shallow embedding of `src/app.py` (a crypto trend dashboard): the TTL cache
helper `get_cached_data`, exchange selection with ordered fallback
`get_exchange_for_asset`, the trend indicators (`calculate_ema`,
`calculate_performance`, the BTC cross-rate loop) and the per-cycle analysis
orchestration of `get_trend_analysis` / `update_data`.

Modelling conventions: Python floats are rationals (`ℚ`); the wall clock is a
`Nat` passed explicitly; a `cachetools.TTLCache` is an association list of
(key, value, store-time) entries; network effects (ccxt `load_markets` and
`fetch_ohlcv`) are an explicit environment `Env` mapping venue and symbol to
a typed outcome; a raised Python exception is `Except.error` carrying
`str(e)`. Only the close column of each OHLCV candle is consumed downstream,
so fetched series are represented by their lists of closes.
-/

/-- A TTL cache store: association list of (key, (cached value, store time)).
Mirrors `cachetools.TTLCache`; insertion conses to the front, which shadows
any stale entry for the same key, like dictionary replacement. -/
abbrev CacheStore (α : Type) : Type := List (String × α × Nat)

/-- The `key in cache_store` test: an entry counts as present while
`now < stored + ttl`; `cachetools` treats an entry whose TTL elapsed as
absent, so the next access is a miss. -/
def cache_contains {α : Type} (st : CacheStore α) (key : String) (now ttl : Nat) : Bool :=
  match List.lookup key st with
  | some (_, stored) => decide (now < stored + ttl)
  | none => false

/-- Result of `get_cached_data`: either a value (fresh or cached), or the
`error` dictionary built in the `except` branch when the producer raised. -/
inductive FetchOutcome (α : Type) : Type
  | ok : α → FetchOutcome α
  | errorDict : String → FetchOutcome α
  deriving DecidableEq

/-- The miss path of `get_cached_data` (`src/app.py` lines 40-45): invoke the
producer; on success store the value under the key and return it; on an
exception return the `error` dictionary WITHOUT storing anything. The third
component records that the producer was invoked. -/
def run_fetch {α : Type} (key : String) (fetch_func : Except String α)
    (st : CacheStore α) (now : Nat) : FetchOutcome α × CacheStore α × Bool :=
  match fetch_func with
  | .ok v => (.ok v, (key, v, now) :: st, true)
  | .error e => (.errorDict e, st, true)

/-- `get_cached_data(key, fetch_func, cache_store)` from `src/app.py`
lines 37-46: on a hit within TTL return the stored value without invoking the
producer; otherwise run the miss path. `now` and `ttl` make the ambient clock
and the store's TTL explicit; the post-store `time.sleep(0.5)` rate limit is
real time and is not modelled. The returned Bool records whether the producer
was invoked by this call. -/
def get_cached_data {α : Type} (key : String) (fetch_func : Except String α)
    (st : CacheStore α) (now ttl : Nat) : FetchOutcome α × CacheStore α × Bool :=
  match List.lookup key st with
  | some (v, stored) =>
      if now < stored + ttl then (.ok v, st, false)
      else run_fetch key fetch_func st now
  | none => run_fetch key fetch_func st now

/-- One update step of the adjust-free exponentially weighted mean:
`y = (1 - alpha) * prev + alpha * x`. This is the recurrence pandas applies
for `ewm(span, adjust=False)`. -/
def ewmStep (alpha prev x : ℚ) : ℚ := (1 - alpha) * prev + alpha * x

/-- The last element of the `ewm(..., adjust=False).mean()` series with seed
`x0` and remaining inputs `xs`. -/
def ewmLast (alpha x0 : ℚ) (xs : List ℚ) : ℚ := xs.foldl (ewmStep alpha) x0

/-- `calculate_ema(data, periods)` from `src/app.py` lines 34-35:
`pd.Series(data).ewm(span=periods, adjust=False).mean().iloc[-1]`. With
`adjust=False` pandas computes `y_0 = x_0`, `y_t = (1-α) y_(t-1) + α x_t`
with `α = 2/(span+1)`, and `.iloc[-1]` takes the last value; on an empty
series `.iloc[-1]` raises (modelled as `none`). -/
def calculate_ema (data : List ℚ) (periods : Nat) : Option ℚ :=
  match data with
  | [] => none
  | x :: xs => some (ewmLast (2 / ((periods : ℚ) + 1)) x xs)

/-- Modelled from the spec for the refinement claim C6 (the reference
recursion the spec states for `ema`): "standard EWMA, α = 2/(period+1),
seeded from the first value, no adjustment factor", i.e.
`y_0 = series[0]`, `y_t = (1-α) y_(t-1) + α series[t]`, evaluated at the
last index. -/
def ema_ref_rec (series : List ℚ) (alpha : ℚ) : Nat → ℚ
  | 0 => series.getD 0 0
  | t + 1 => (1 - alpha) * ema_ref_rec series alpha t + alpha * series.getD (t + 1) 0

/-- Python's negative indexing `xs[-k]`: element `xs[len-k]` for
`1 ≤ k ≤ len`, element `xs[0]` for `k = 0` (since `-0 = 0`), and an
`IndexError` (`none`) otherwise. -/
def python_neg_index (xs : List ℚ) (k : Nat) : Option ℚ :=
  if k = 0 then xs.get? 0
  else if k ≤ xs.length then xs.get? (xs.length - k)
  else none

/-- `calculate_performance(closes, days)` from `src/app.py` lines 99-110:
inside a catch-all `try`, if `len(closes) >= days` read `closes[-1]` and
`closes[-days]`, and when the past price is nonzero return
`((current - past) / past) * 100`; every other path (guard false, zero past
price, or an `IndexError` from the subscripts) returns `None`. -/
def calculate_performance (closes : List ℚ) (days : Nat) : Option ℚ :=
  if days ≤ closes.length then
    match python_neg_index closes 1, python_neg_index closes days with
    | some current_price, some past_price =>
        if past_price ≠ 0 then some ((current_price - past_price) / past_price * 100)
        else none
    | _, _ => none
  else none

/-- The BTC cross-rate loop of `src/app.py` lines 170-178: for each index
`i` below the shorter of the two input lengths, append
`token_closes[i] / btc_closes[i]` — alignment is purely positional. (The
`ZeroDivisionError` a zero BTC close would raise is modelled by the explicit
guard in `fetch_analysis`; rational division itself is total.) -/
def crossRate (token_closes btc_closes : List ℚ) : List ℚ :=
  (List.range (min token_closes.length btc_closes.length)).map
    (fun i => token_closes.getD i 0 / btc_closes.getD i 0)

/-- The outside world as `src/app.py` observes it through ccxt:
`load_markets ex` says whether `getattr(ccxt, ex)().load_markets()` succeeds,
and `fetch ex pair` is the outcome of `fetch_ohlcv(pair, '1d', limit=50)` on
venue `ex`, projected to the list of closes (`[x[4] for x in ohlcv]`). -/
structure Env where
  load_markets : String → Bool
  fetch : String → String → Except String (List ℚ)

/-- The ordered fallback loops inside `get_exchange_for_asset`: construct
each candidate in turn, call `load_markets()`, return the first venue that
validates, and raise `"Could not connect to any exchange for <asset>"` when
every candidate fails. -/
def tryExchanges (env : Env) (ids : List String) (asset_name : String) : Except String String :=
  match ids with
  | [] => Except.error ("Could not connect to any exchange for " ++ asset_name)
  | exchange_id :: rest =>
      if env.load_markets exchange_id then Except.ok exchange_id
      else tryExchanges env rest asset_name

/-- `get_exchange_for_asset(base_symbol, preferred_exchange)` from
`src/app.py` lines 57-97: a preferred exchange is constructed directly and
returned (no fallback, no `load_markets` validation); otherwise the asset
picks its hardcoded branch. Exchange handles are identified by their ccxt
venue id strings. -/
def get_exchange_for_asset (env : Env) (base_symbol : String)
    (preferred_exchange : Option String) : Except String String :=
  match preferred_exchange with
  | some ex => Except.ok ex
  | none =>
      if base_symbol = "BTC" ∨ base_symbol = "ETH" ∨ base_symbol = "SOL" then Except.ok "coinbase"
      else if base_symbol = "BANANA" then tryExchanges env ["mexc", "gate", "bitget"] "BANANA"
      else if base_symbol = "TIG" then Except.ok "xt"
      else if base_symbol = "NATIX" then tryExchanges env ["kucoin", "gate", "mexc"] "NATIX"
      else if base_symbol = "FAI" then tryExchanges env ["bitmart", "bingx"] "FAI"
      else Except.ok "coinbase"

/-- Number of fresh ccxt exchange instances one call of
`get_exchange_for_asset` constructs along a fallback list: one per attempted
venue until the first that validates. -/
def tryExchanges_constructions (env : Env) (ids : List String) : Nat :=
  match ids with
  | [] => 0
  | exchange_id :: rest =>
      if env.load_markets exchange_id then 1 else 1 + tryExchanges_constructions env rest

/-- Number of fresh ccxt exchange instances one call of
`get_exchange_for_asset` constructs in total: every branch of the source
builds at least one new instance with `ccxt.<venue>()` / `getattr(ccxt, ...)()`. -/
def exchange_constructions (env : Env) (base_symbol : String)
    (preferred_exchange : Option String) : Nat :=
  match preferred_exchange with
  | some _ => 1
  | none =>
      if base_symbol = "BTC" ∨ base_symbol = "ETH" ∨ base_symbol = "SOL" then 1
      else if base_symbol = "BANANA" then tryExchanges_constructions env ["mexc", "gate", "bitget"]
      else if base_symbol = "TIG" then 1
      else if base_symbol = "NATIX" then tryExchanges_constructions env ["kucoin", "gate", "mexc"]
      else if base_symbol = "FAI" then tryExchanges_constructions env ["bitmart", "bingx"]
      else 1

/-- State-level view of one `get_exchange_for_asset` call against the
module-level `exchange_cache` (`src/app.py` line 19, maxsize 20, ttl 3600):
the source function never reads or writes that cache, so it passes through
unchanged, and `exchange_constructions` fresh instances are built. -/
def get_exchange_for_asset_st (env : Env) (base_symbol : String)
    (preferred_exchange : Option String) (exchange_cache : CacheStore String) :
    Except String String × CacheStore String × Nat :=
  (get_exchange_for_asset env base_symbol preferred_exchange, exchange_cache,
   exchange_constructions env base_symbol preferred_exchange)

/-- The symbol-pair spelling table of `src/app.py` lines 126-153: default is
`<base>/<USD or USDT>` depending on whether the venue is coinbase, with the
enumerated per-(asset, venue) overrides for BANANA, TIG, NATIX and FAI. -/
def symbol_pair_for (base_symbol exchange_id : String) : String :=
  let actual_quote := if exchange_id = "coinbase" then "USD" else "USDT"
  let default_pair := base_symbol ++ "/" ++ actual_quote
  if base_symbol = "BANANA" then
    if exchange_id = "mexc" then "BANANA/USDT"
    else if exchange_id = "gate" then "BANANA_USDT"
    else if exchange_id = "bitget" then "BANANA/USDT"
    else default_pair
  else if base_symbol = "TIG" then "TIG/USDT"
  else if base_symbol = "NATIX" then
    if exchange_id = "kucoin" then "NATIX-USDT"
    else if exchange_id = "gate" then "NATIX_USDT"
    else default_pair
  else if base_symbol = "FAI" then
    if exchange_id = "bitmart" then "FAI/USDT"
    else if exchange_id = "bingx" then "FAI/USDT"
    else default_pair
  else default_pair

/-- The result dictionary of `get_trend_analysis`; a field is `none` exactly
when the corresponding key is absent from the returned Python dict. The
wall-clock `timestamp` string is informational only and not modelled;
`perf_7d`/`perf_14d` are present keys whose value may itself be `None`. -/
structure TrendResult where
  symbol : Option String := none
  error : Option String := none
  current_price : Option ℚ := none
  ema8 : Option ℚ := none
  ema20 : Option ℚ := none
  is_uptrend : Option Bool := none
  trend_text : Option String := none
  quote_currency : Option String := none
  chain : Option (Option String) := none
  exchange : Option String := none
  is_calculated : Option Bool := none
  perf_7d : Option (Option ℚ) := none
  perf_14d : Option (Option ℚ) := none
  deriving DecidableEq

/-- The `except` dictionary of `src/app.py` lines 214-220: an exception
raised after exchange resolution yields
`{"symbol": base/quote, "error": "Error on <ex>: <e>", "chain": ..., "exchange": ...}`. -/
def error_on (base_symbol quote_symbol : String) (chain : Option String)
    (exchange_id message : String) : TrendResult :=
  { symbol := some (base_symbol ++ "/" ++ quote_symbol)
    error := some ("Error on " ++ exchange_id ++ ": " ++ message)
    chain := some chain
    exchange := some exchange_id }

/-- The success dictionary of `src/app.py` lines 199-213. -/
def trend_success (closes : List ℚ) (symbol_pair quote_symbol : String)
    (chain : Option String) (exchange_id : String) (e8 e20 : ℚ) : TrendResult :=
  { symbol := some symbol_pair
    current_price := some (closes.getD (closes.length - 1) 0)
    ema8 := some e8
    ema20 := some e20
    is_uptrend := some (decide (e20 < e8))
    trend_text := some (if e20 < e8 then "Uptrend" else "Downtrend")
    quote_currency := some quote_symbol
    chain := some chain
    exchange := some exchange_id
    is_calculated := some (decide (quote_symbol = "BTC"))
    perf_7d := some (calculate_performance closes 7)
    perf_14d := some (calculate_performance closes 14) }

/-- The indicator computation of `src/app.py` lines 191-213 over a list of
closes; on an empty list `calculate_ema`'s `.iloc[-1]` raises, which the
enclosing `except` turns into an `error_on` dictionary. -/
def compute_trend (closes : List ℚ) (base_symbol symbol_pair quote_symbol : String)
    (chain : Option String) (exchange_id : String) : TrendResult :=
  match calculate_ema closes 8, calculate_ema closes 20 with
  | some e8, some e20 => trend_success closes symbol_pair quote_symbol chain exchange_id e8 e20
  | _, _ => error_on base_symbol quote_symbol chain exchange_id
      "single positional indexer is out-of-bounds"

/-- The producer `fetch_analysis` of `get_trend_analysis` (`src/app.py`
lines 115-220): resolve the exchange (a failure becomes an error dictionary
with no `exchange` key), spell the venue's USD/USDT symbol pair, then either
derive the BTC cross-rate (token series, then BTC/USD from coinbase, then the
positional ratio — a zero BTC close raises `ZeroDivisionError` into the
`except` branch) or fetch the pair directly, and compute the indicators.
This function catches everything internally and never raises. -/
def fetch_analysis (env : Env) (base_symbol quote_symbol : String)
    (chain : Option String) (preferred_exchange : Option String) : TrendResult :=
  match get_exchange_for_asset env base_symbol preferred_exchange with
  | Except.error e =>
      { symbol := some (base_symbol ++ "/" ++ quote_symbol), error := some e,
        chain := some chain }
  | Except.ok exchange_id =>
      let symbol_pair := symbol_pair_for base_symbol exchange_id
      if quote_symbol = "BTC" then
        match env.fetch exchange_id symbol_pair with
        | Except.error e => error_on base_symbol quote_symbol chain exchange_id e
        | Except.ok token_closes =>
            if token_closes = [] then
              { symbol := some symbol_pair, error := some "No price data available",
                chain := some chain, exchange := some exchange_id }
            else
              match env.fetch "coinbase" "BTC/USD" with
              | Except.error e => error_on base_symbol quote_symbol chain exchange_id e
              | Except.ok btc_closes =>
                  if (List.range (min token_closes.length btc_closes.length)).any
                      (fun i => decide (btc_closes.getD i 0 = 0)) then
                    error_on base_symbol quote_symbol chain exchange_id "float division by zero"
                  else
                    compute_trend (crossRate token_closes btc_closes) base_symbol symbol_pair
                      quote_symbol chain exchange_id
      else
        match env.fetch exchange_id symbol_pair with
        | Except.error e => error_on base_symbol quote_symbol chain exchange_id e
        | Except.ok ohlcv =>
            if ohlcv = [] then
              { symbol := some symbol_pair,
                error := some ("No data available on " ++ exchange_id),
                chain := some chain, exchange := some exchange_id }
            else
              compute_trend ohlcv base_symbol symbol_pair quote_symbol chain exchange_id

/-- `get_trend_analysis(base, quote, chain, preferred)` from `src/app.py`
lines 112-222: run the producer through the 5-minute OHLCV cache under the
key `f"<base>_<quote>"`. The producer never raises, so the error-dictionary
branch of `get_cached_data` is unreachable here; a hit returns whatever
dictionary was stored. -/
def get_trend_analysis (env : Env) (base_symbol quote_symbol : String)
    (chain preferred_exchange : Option String) (st : CacheStore TrendResult)
    (now : Nat) : TrendResult × CacheStore TrendResult :=
  match get_cached_data (base_symbol ++ "_" ++ quote_symbol)
      (Except.ok (fetch_analysis env base_symbol quote_symbol chain preferred_exchange))
      st now 300 with
  | (FetchOutcome.ok r, st', _) => (r, st')
  | (FetchOutcome.errorDict e, st', _) => ({ error := some e }, st')

/-- One row of `portfolio_analysis` in `update_data`. -/
structure PortfolioEntry where
  asset : String
  chain : Option String
  usdt : TrendResult
  btc : TrendResult
  deriving DecidableEq

/-- The body of the portfolio loop of `update_data` (`src/app.py`
lines 254-281): BTC gets only the USD analysis plus the `"Same asset"`
sentinel; every other asset gets a USD and then a BTC-quoted analysis. The
surrounding per-asset `except` is unreachable because `get_trend_analysis`
never raises. -/
def process_asset (env : Env) (asset : String × Option String)
    (st : CacheStore TrendResult) (now : Nat) : PortfolioEntry × CacheStore TrendResult :=
  if asset.1 = "BTC" then
    let r1 := get_trend_analysis env asset.1 "USD" asset.2 none st now
    ({ asset := asset.1, chain := asset.2, usdt := r1.1,
       btc := { symbol := some "BTC/BTC", error := some "Same asset" } }, r1.2)
  else
    let r1 := get_trend_analysis env asset.1 "USD" asset.2 none st now
    let r2 := get_trend_analysis env asset.1 "BTC" asset.2 none r1.2 now
    ({ asset := asset.1, chain := asset.2, usdt := r1.1, btc := r2.1 }, r2.2)

/-- The portfolio loop of `update_data`: process each asset in order,
threading the shared OHLCV cache. -/
def process_portfolio (env : Env) (assets : List (String × Option String))
    (st : CacheStore TrendResult) (now : Nat) :
    List PortfolioEntry × CacheStore TrendResult :=
  match assets with
  | [] => ([], st)
  | a :: rest =>
      let r1 := process_asset env a st now
      let r2 := process_portfolio env rest r1.2 now
      (r1.1 :: r2.1, r2.2)

/-- The hardcoded portfolio of `src/app.py` lines 234-242. -/
def portfolio_assets : List (String × Option String) :=
  [("BTC", none), ("ETH", none), ("SOL", none), ("BANANA", some "ethereum"),
   ("NATIX", some "solana"), ("TIG", some "base"), ("FAI", some "base")]

/-- One run of the `/update` cycle's portfolio processing (`src/app.py`
lines 224-281): `update_data` clears both caches before the loop, so the
cycle starts from an empty store. -/
def update_cycle (env : Env) (now : Nat) : List PortfolioEntry :=
  (process_portfolio env portfolio_assets [] now).1

/-- A concrete environment for witnesses: every fallback venue fails
`load_markets`, xt serves TIG/USDT, coinbase serves BTC/USD and ETH/USD, and
every other fetch fails. -/
def sampleEnv : Env where
  load_markets := fun _ => false
  fetch := fun exchange_id symbol_pair =>
    if exchange_id = "xt" ∧ symbol_pair = "TIG/USDT" then Except.ok [2, 4]
    else if exchange_id = "coinbase" ∧ symbol_pair = "BTC/USD" then Except.ok [8, 16]
    else if exchange_id = "coinbase" ∧ symbol_pair = "ETH/USD" then Except.ok [30, 60]
    else Except.error "exchange unavailable"

/-- A concrete environment for witnesses: only gate validates its markets,
and every fetch fails. -/
def sampleEnv2 : Env where
  load_markets := fun exchange_id => decide (exchange_id = "gate")
  fetch := fun _ _ => Except.error "exchange unavailable"

theorem get_cached_data_miss {α : Type} (key : String) (fetch_func : Except String α)
    (st : CacheStore α) (now ttl : Nat) (h : cache_contains st key now ttl = false) :
    get_cached_data key fetch_func st now ttl = run_fetch key fetch_func st now := by
  unfold cache_contains at h
  unfold get_cached_data
  cases hl : List.lookup key st with
  | none => rfl
  | some p =>
      obtain ⟨v, stored⟩ := p
      rw [hl] at h
      simp only [decide_eq_false_iff_not] at h
      simp [h]

theorem get_cached_data_hit {α : Type} (key : String) (fetch_func : Except String α)
    (st : CacheStore α) (now ttl : Nat) (v : α) (stored : Nat)
    (hl : List.lookup key st = some (v, stored)) (ht : now < stored + ttl) :
    get_cached_data key fetch_func st now ttl = (.ok v, st, false) := by
  unfold get_cached_data
  rw [hl]
  simp [ht]

/-- C1 counterexample: the claim says a failing producer's error is stored
under the key so that a second call within the TTL window returns the stored
error without invoking the producer again. At key "k" with a producer that
raises "boom", the first call stores nothing (the cache stays empty), and a
second call one second later — well within the 300-second TTL — invokes the
producer again. -/
theorem C1_counterexample :
    (get_cached_data "k" (Except.error "boom") ([] : CacheStore ℚ) 0 300).2.1 = []
    ∧ (get_cached_data "k" (Except.error "boom")
        ((get_cached_data "k" (Except.error "boom") ([] : CacheStore ℚ) 0 300).2.1)
        1 300).2.2 = true := by
  decide

/-- C1 (amended): when the producer raises, `get_cached_data` returns the
error dictionary but stores nothing, so the cache is unchanged and a second
call with the same key — at any time at which the key is still absent, in
particular anywhere inside the would-be TTL window — invokes the producer
again: errors are NOT memoized. -/
theorem C1_errors_not_memoized (α : Type) (key msg : String) (st : CacheStore α)
    (now now' ttl : Nat) (h : cache_contains st key now ttl = false)
    (h' : cache_contains st key now' ttl = false) :
    get_cached_data key (Except.error msg) st now ttl = (.errorDict msg, st, true)
    ∧ get_cached_data key (Except.error msg)
        ((get_cached_data key (Except.error msg) st now ttl).2.1) now' ttl
        = (.errorDict msg, st, true) := by
  have e1 : get_cached_data key (Except.error msg) st now ttl = (.errorDict msg, st, true) := by
    rw [get_cached_data_miss key _ st now ttl h]; rfl
  refine ⟨e1, ?_⟩
  rw [e1]
  rw [get_cached_data_miss key _ st now' ttl h']; rfl

theorem C1_errors_not_memoized_witness :
    cache_contains ([] : CacheStore ℚ) "k" 0 300 = false
    ∧ get_cached_data "k" (Except.error "boom") ([] : CacheStore ℚ) 0 300
        = (.errorDict "boom", [], true) := by
  refine ⟨by decide, ?_⟩
  exact (C1_errors_not_memoized ℚ "k" "boom" [] 0 1 300 (by decide) (by decide)).1

/-- C8: for a key absent from the store and a producer that returns a value,
the first call invokes the producer and stores the value; a second call with
the same key at any time within the TTL window returns the cached value
without invoking the producer (so across the two calls the producer ran
exactly once); a call at or after TTL expiry invokes the producer again. -/
theorem C8_cache_single_fetch (α : Type) (key : String) (v : α) (st0 : CacheStore α)
    (t0 t1 t2 ttl : Nat) (h0 : cache_contains st0 key t0 ttl = false)
    (h1 : t1 < t0 + ttl) (h2 : ¬ t2 < t0 + ttl) :
    get_cached_data key (Except.ok v) st0 t0 ttl = (.ok v, (key, v, t0) :: st0, true)
    ∧ get_cached_data key (Except.ok v) ((key, v, t0) :: st0) t1 ttl
        = (.ok v, (key, v, t0) :: st0, false)
    ∧ (get_cached_data key (Except.ok v) ((key, v, t0) :: st0) t2 ttl).2.2 = true := by
  refine ⟨?_, ?_, ?_⟩
  · rw [get_cached_data_miss key _ st0 t0 ttl h0]; rfl
  · exact get_cached_data_hit key _ _ t1 ttl v t0 (by simp [List.lookup]) h1
  · unfold get_cached_data
    simp [List.lookup, h2, run_fetch]

theorem C8_cache_single_fetch_witness :
    cache_contains ([] : CacheStore ℚ) "price" 0 300 = false
    ∧ get_cached_data "price" (Except.ok (5 : ℚ)) [("price", (5 : ℚ), 0)] 200 300
        = (.ok 5, [("price", 5, 0)], false) := by
  refine ⟨by decide, ?_⟩
  exact (C8_cache_single_fetch ℚ "price" 5 [] 0 200 300 300 (by decide) (by decide)
    (by decide)).2.1

/-- C4: `calculate_performance(closes, d)` for a lookback `d ≥ 1` returns an
absent value (`none`) when the series is shorter than `d` or the reference
value `closes[len-d]` is zero, and otherwise returns exactly
`((closes[-1] - closes[-d]) / closes[-d]) * 100`; being a total Lean
function, it never raises. In particular the 7-day performance of
`[100,100,100,100,100,100,100,110]` is `10`. -/
theorem C4_performance_spec (closes : List ℚ) (d : Nat) (hd : 1 ≤ d) :
    (closes.length < d → calculate_performance closes d = none)
    ∧ (d ≤ closes.length → closes.getD (closes.length - d) 0 = 0 →
        calculate_performance closes d = none)
    ∧ (d ≤ closes.length → closes.getD (closes.length - d) 0 ≠ 0 →
        calculate_performance closes d =
          some ((closes.getD (closes.length - 1) 0 - closes.getD (closes.length - d) 0) /
            closes.getD (closes.length - d) 0 * 100))
    ∧ calculate_performance [100, 100, 100, 100, 100, 100, 100, 110] 7 = some 10 := by
  have key : ∀ (hle : d ≤ closes.length),
      calculate_performance closes d =
        (if closes.getD (closes.length - d) 0 ≠ 0 then
          some ((closes.getD (closes.length - 1) 0 - closes.getD (closes.length - d) 0) /
            closes.getD (closes.length - d) 0 * 100)
        else none) := by
    intro hle
    obtain ⟨cur, hcur⟩ : ∃ a, closes.get? (closes.length - 1) = some a :=
      ⟨_, List.get?_eq_get (by omega)⟩
    obtain ⟨past, hpast⟩ : ∃ a, closes.get? (closes.length - d) = some a :=
      ⟨_, List.get?_eq_get (by omega)⟩
    have hcur' : closes.getD (closes.length - 1) 0 = cur := by
      rw [List.getD_eq_getElem?_getD, ← List.get?_eq_getElem?, hcur]; rfl
    have hpast' : closes.getD (closes.length - d) 0 = past := by
      rw [List.getD_eq_getElem?_getD, ← List.get?_eq_getElem?, hpast]; rfl
    unfold calculate_performance python_neg_index
    rw [if_pos hle, if_neg (by omega : ¬ (1:Nat) = 0), if_pos (by omega : 1 ≤ closes.length),
      if_neg (by omega : ¬ d = 0), if_pos hle, hcur, hpast, hcur', hpast']
  refine ⟨?_, ?_, ?_, by norm_num [calculate_performance, python_neg_index]⟩
  · intro hlt
    unfold calculate_performance
    rw [if_neg (by omega)]
  · intro hle hz
    rw [key hle, if_neg (by simpa using hz)]
  · intro hle hnz
    rw [key hle, if_pos hnz]

theorem C4_performance_spec_witness :
    1 ≤ 7
    ∧ calculate_performance [100, 100, 100, 100, 100, 100, 100, 110] 7 = some 10 :=
  ⟨by decide, (C4_performance_spec [100, 100, 100, 100, 100, 100, 100, 110] 7 (by decide)).2.2.2⟩

/-- C5: the cross-rate derivation returns a series of length
`min (len primary) (len reference)` whose i-th element is
`primary[i] / reference[i]` — alignment is purely by index position, never by
timestamp (the embedding carries no timestamps at all); in particular
`crossRate [10,20,30] [2,4,5] = [5,5,6]`. The nonzero-denominator hypothesis
scopes the statement to inputs on which the Python loop returns rather than
raising `ZeroDivisionError`. -/
theorem C5_cross_rate (token_closes btc_closes : List ℚ) :
    (crossRate token_closes btc_closes).length
      = min token_closes.length btc_closes.length
    ∧ (∀ i, i < min token_closes.length btc_closes.length →
        btc_closes.getD i 0 ≠ 0 →
        (crossRate token_closes btc_closes)[i]?
          = some (token_closes.getD i 0 / btc_closes.getD i 0))
    ∧ crossRate [10, 20, 30] [2, 4, 5] = [5, 5, 6] := by
  refine ⟨by simp [crossRate], ?_, ?_⟩
  · intro i hi _
    simp [crossRate, List.getElem?_map, List.getElem?_range hi]
  · show (List.range (min 3 3)).map _ = _
    norm_num [List.range_succ]

theorem C5_cross_rate_witness :
    (1 < min ([10, 20, 30] : List ℚ).length ([2, 4, 5] : List ℚ).length)
    ∧ (([2, 4, 5] : List ℚ).getD 1 0 ≠ 0)
    ∧ (crossRate [10, 20, 30] [2, 4, 5])[1]?
        = some (([10, 20, 30] : List ℚ).getD 1 0 / ([2, 4, 5] : List ℚ).getD 1 0) :=
  ⟨by decide, by norm_num, (C5_cross_rate [10, 20, 30] [2, 4, 5]).2.1 1 (by decide) (by norm_num)⟩

theorem ewmLast_append (a x0 z : ℚ) (ys : List ℚ) :
    ewmLast a x0 (ys ++ [z]) = ewmStep a (ewmLast a x0 ys) z := by
  simp [ewmLast, List.foldl_append]

theorem ema_ref_rec_append (ys : List ℚ) (z a : ℚ) (t : Nat) (ht : t < ys.length) :
    ema_ref_rec (ys ++ [z]) a t = ema_ref_rec ys a t := by
  induction t with
  | zero =>
      show (ys ++ [z]).getD 0 0 = ys.getD 0 0
      exact List.getD_append ys [z] 0 0 (by omega)
  | succ t ih =>
      have ht' : t < ys.length := by omega
      show (1 - a) * ema_ref_rec (ys ++ [z]) a t + a * (ys ++ [z]).getD (t + 1) 0
        = (1 - a) * ema_ref_rec ys a t + a * ys.getD (t + 1) 0
      rw [ih ht', List.getD_append ys [z] 0 (t + 1) ht]

theorem ewmLast_eq_ref (a x : ℚ) (xs : List ℚ) :
    ewmLast a x xs = ema_ref_rec (x :: xs) a xs.length := by
  induction xs using List.reverseRecOn with
  | nil => simp [ewmLast, ema_ref_rec]
  | append_singleton ys z ih =>
      rw [ewmLast_append, ih]
      have hlen : (ys ++ [z]).length = ys.length + 1 := by simp
      rw [hlen]
      show ewmStep a (ema_ref_rec (x :: ys) a ys.length) z
        = (1 - a) * ema_ref_rec (x :: (ys ++ [z])) a ys.length
          + a * (x :: (ys ++ [z])).getD (ys.length + 1) 0
      have h1 : (x :: (ys ++ [z])) = (x :: ys) ++ [z] := by simp
      have h2 : ema_ref_rec (x :: (ys ++ [z])) a ys.length = ema_ref_rec (x :: ys) a ys.length := by
        rw [h1]; exact ema_ref_rec_append (x :: ys) z a ys.length (by simp)
      have h3 : (x :: (ys ++ [z])).getD (ys.length + 1) 0 = z := by
        rw [h1, List.getD_append_right (x :: ys) [z] 0 (ys.length + 1) (by simp)]
        simp
      rw [h2, h3, ewmStep]

/-- C6: `calculate_ema(series, p)` — the embedding of
`pd.Series(series).ewm(span=p, adjust=False).mean().iloc[-1]` — equals the
last value of the spec's reference recursion `y_0 = series[0]`,
`y_t = (1-α) y_(t-1) + α series[t]` with `α = 2/(p+1)`, for every non-empty
series and period `p ≥ 1`. -/
theorem C6_ema_refines_recursion (series : List ℚ) (p : Nat) (hp : 1 ≤ p)
    (hne : series ≠ []) :
    calculate_ema series p
      = some (ema_ref_rec series (2 / ((p : ℚ) + 1)) (series.length - 1)) := by
  cases series with
  | nil => exact absurd rfl hne
  | cons x xs =>
      show some (ewmLast (2 / ((p : ℚ) + 1)) x xs)
        = some (ema_ref_rec (x :: xs) (2 / ((p : ℚ) + 1)) ((x :: xs).length - 1))
      rw [ewmLast_eq_ref]
      simp

theorem C6_ema_refines_recursion_witness :
    1 ≤ 2 ∧ (([1, 3, 2] : List ℚ) ≠ [])
    ∧ calculate_ema [1, 3, 2] 2
        = some (ema_ref_rec [1, 3, 2] (2 / (((2 : Nat) : ℚ) + 1)) (([1, 3, 2] : List ℚ).length - 1)) :=
  ⟨by decide, by decide, C6_ema_refines_recursion [1, 3, 2] 2 (by decide) (by decide)⟩

theorem ewmLast_bounds (a lo hi : ℚ) (h0 : 0 ≤ a) (h1 : a ≤ 1) :
    ∀ (xs : List ℚ) (acc : ℚ), lo ≤ acc → acc ≤ hi →
      (∀ x ∈ xs, lo ≤ x ∧ x ≤ hi) →
      lo ≤ ewmLast a acc xs ∧ ewmLast a acc xs ≤ hi := by
  intro xs
  induction xs with
  | nil => intro acc hl hh _; exact ⟨hl, hh⟩
  | cons y ys ih =>
      intro acc hl hh hmem
      have hy := hmem y (List.mem_cons_self y ys)
      have stepl : lo ≤ ewmStep a acc y := by
        unfold ewmStep
        nlinarith [mul_nonneg (sub_nonneg.mpr h1) (sub_nonneg.mpr hl),
          mul_nonneg h0 (sub_nonneg.mpr hy.1)]
      have steph : ewmStep a acc y ≤ hi := by
        unfold ewmStep
        nlinarith [mul_nonneg (sub_nonneg.mpr h1) (sub_nonneg.mpr hh),
          mul_nonneg h0 (sub_nonneg.mpr hy.2)]
      have hstep : ewmLast a acc (y :: ys) = ewmLast a (ewmStep a acc y) ys := rfl
      rw [hstep]
      exact ih (ewmStep a acc y) stepl steph (fun x hx => hmem x (List.mem_cons_of_mem y hx))

/-- C7: for every period `p ≥ 1` and non-empty series, `calculate_ema`
returns a value inside the closed interval between the series minimum and
maximum: each EWMA step with `α = 2/(p+1) ∈ (0, 1]` is a convex combination
of in-range quantities. -/
theorem C7_ema_within_bounds (series : List ℚ) (p : Nat) (hp : 1 ≤ p) (lo hi v : ℚ)
    (hlo : series.min? = some lo) (hhi : series.max? = some hi)
    (hv : calculate_ema series p = some v) : lo ≤ v ∧ v ≤ hi := by
  have hlo_le : ∀ b ∈ series, lo ≤ b :=
    (List.le_min?_iff (fun a b c => le_min_iff) hlo).1 le_rfl
  have hhi_ge : ∀ b ∈ series, b ≤ hi :=
    (List.max?_le_iff (fun a b c => max_le_iff) hhi).1 le_rfl
  have ha0 : (0 : ℚ) ≤ 2 / ((p : ℚ) + 1) := by positivity
  have ha1 : 2 / ((p : ℚ) + 1) ≤ 1 := by
    rw [div_le_one (by positivity)]
    have : (1 : ℚ) ≤ (p : ℚ) := by exact_mod_cast hp
    linarith
  cases series with
  | nil => exact absurd hv (by simp [calculate_ema])
  | cons x xs =>
      have hx : lo ≤ x ∧ x ≤ hi :=
        ⟨hlo_le x (List.mem_cons_self x xs), hhi_ge x (List.mem_cons_self x xs)⟩
      have hxs : ∀ y ∈ xs, lo ≤ y ∧ y ≤ hi := fun y hy =>
        ⟨hlo_le y (List.mem_cons_of_mem x hy), hhi_ge y (List.mem_cons_of_mem x hy)⟩
      have hv' : v = ewmLast (2 / ((p : ℚ) + 1)) x xs := by
        have : calculate_ema (x :: xs) p = some (ewmLast (2 / ((p : ℚ) + 1)) x xs) := rfl
        rw [this] at hv
        exact (Option.some.injEq _ _ ▸ hv).symm
      rw [hv']
      exact ewmLast_bounds _ lo hi ha0 ha1 xs x hx.1 hx.2 hxs

theorem C7_ema_within_bounds_witness :
    1 ≤ 2 ∧ ([1, 3, 2] : List ℚ).min? = some 1 ∧ ([1, 3, 2] : List ℚ).max? = some 3
    ∧ calculate_ema [1, 3, 2] 2 = some (19 / 9)
    ∧ ((1 : ℚ) ≤ 19 / 9 ∧ (19 / 9 : ℚ) ≤ 3) := by
  refine ⟨by decide, ?_, ?_, ?_, ?_⟩
  · norm_num [List.min?_cons', min_def]
  · norm_num [List.max?_cons', max_def]
  · norm_num [calculate_ema, ewmLast, ewmStep]
  · exact C7_ema_within_bounds [1, 3, 2] 2 (by decide) 1 3 (19 / 9)
      (by norm_num [List.min?_cons', min_def]) (by norm_num [List.max?_cons', max_def])
      (by norm_num [calculate_ema, ewmLast, ewmStep])

/-- C9: venue selection. A preferred venue bypasses the fallback table and is
returned as the single candidate for every environment (its later failure is
terminal: a failing fetch on it yields the error dictionary naming that venue,
with no other venue tried — last conjunct). Without an override, BTC/ETH/SOL
and unknown assets resolve to coinbase, TIG to xt, and NATIX/FAI walk their
ordered fallback lists, where the first venue whose markets load wins and the
exhaustion of the list raises the connect error. -/
theorem C9_venue_selection (env : Env) :
    (∀ base ex, get_exchange_for_asset env base (some ex) = Except.ok ex)
    ∧ (∀ base, base = "BTC" ∨ base = "ETH" ∨ base = "SOL" →
        get_exchange_for_asset env base none = Except.ok "coinbase")
    ∧ (∀ base, base ≠ "BTC" → base ≠ "ETH" → base ≠ "SOL" → base ≠ "BANANA" →
        base ≠ "TIG" → base ≠ "NATIX" → base ≠ "FAI" →
        get_exchange_for_asset env base none = Except.ok "coinbase")
    ∧ get_exchange_for_asset env "TIG" none = Except.ok "xt"
    ∧ get_exchange_for_asset env "NATIX" none
        = tryExchanges env ["kucoin", "gate", "mexc"] "NATIX"
    ∧ get_exchange_for_asset env "FAI" none
        = tryExchanges env ["bitmart", "bingx"] "FAI"
    ∧ (∀ pre ex post name, (∀ j ∈ pre, env.load_markets j = false) →
        env.load_markets ex = true →
        tryExchanges env (pre ++ ex :: post) name = Except.ok ex)
    ∧ (∀ ids name, (∀ j ∈ ids, env.load_markets j = false) →
        tryExchanges env ids name
          = Except.error ("Could not connect to any exchange for " ++ name))
    ∧ (∀ base ex chain m, env.fetch ex (symbol_pair_for base ex) = Except.error m →
        fetch_analysis env base "USD" chain (some ex) = error_on base "USD" chain ex m) := by
  refine ⟨fun base ex => rfl, ?_, ?_, rfl, rfl, rfl, ?_, ?_, ?_⟩
  · intro base h
    rcases h with h | h | h <;> subst h <;> rfl
  · intro base h1 h2 h3 h4 h5 h6 h7
    simp [get_exchange_for_asset, h1, h2, h3, h4, h5, h6, h7]
  · intro pre ex post name hpre hex
    induction pre with
    | nil => simp [tryExchanges, hex]
    | cons j js ih =>
        have hj : env.load_markets j = false := hpre j (List.mem_cons_self j js)
        have hrest : ∀ k ∈ js, env.load_markets k = false := fun k hk =>
          hpre k (List.mem_cons_of_mem j hk)
        simpa [tryExchanges, hj] using ih hrest
  · intro ids name hall
    induction ids with
    | nil => rfl
    | cons j js ih =>
        have hj : env.load_markets j = false := hall j (List.mem_cons_self j js)
        have hrest : ∀ k ∈ js, env.load_markets k = false := fun k hk =>
          hall k (List.mem_cons_of_mem j hk)
        simpa [tryExchanges, hj] using ih hrest
  · intro base ex chain m hm
    simp [fetch_analysis, get_exchange_for_asset, hm]

theorem C9_venue_selection_witness :
    sampleEnv2.load_markets "kucoin" = false
    ∧ sampleEnv2.load_markets "gate" = true
    ∧ tryExchanges sampleEnv2 (["kucoin"] ++ "gate" :: ["mexc"]) "NATIX" = Except.ok "gate" := by
  refine ⟨by decide, by decide, ?_⟩
  exact (C9_venue_selection sampleEnv2).2.2.2.2.2.2.1 ["kucoin"] "gate" ["mexc"] "NATIX"
    (by intro j hj; simp at hj; subst hj; decide) (by decide)

/-- C3: evaluation at the failing input. Even when the hour-TTL
`exchange_cache` already holds a coinbase handle stored at time 0, a second
request for BTC's venue within the hour constructs one fresh ccxt instance
(count 1, not 0) and leaves the handle cache exactly as it was:
`get_exchange_for_asset` never reads or writes `exchange_cache`, so venue
handles are never reused from it. -/
theorem C3_handle_cache_unused :
    get_exchange_for_asset_st sampleEnv "BTC" none [] = (Except.ok "coinbase", [], 1)
    ∧ get_exchange_for_asset_st sampleEnv "BTC" none [("coinbase", "coinbase", 0)]
        = (Except.ok "coinbase", [("coinbase", "coinbase", 0)], 1)
    ∧ (∀ env base preferred st,
        (get_exchange_for_asset_st env base preferred st).2.1 = st) := by
  exact ⟨rfl, rfl, fun env base preferred st => rfl⟩

theorem string_append_left_cancel {a b c : String} (h : a ++ b = a ++ c) : b = c := by
  have hd : a.data ++ b.data = a.data ++ c.data := by
    simpa [String.data_append] using congrArg String.data h
  have hbc : b.data = c.data := List.append_cancel_left hd
  cases b
  cases c
  exact congrArg String.mk (by simpa using hbc)

theorem append_quote_ne_btc (base q : String) (hq : "/" ++ q ≠ "/BTC") :
    base ++ "/" ++ q ≠ base ++ "/BTC" := by
  intro h
  apply hq
  apply string_append_left_cancel (a := base)
  calc base ++ ("/" ++ q) = base ++ "/" ++ q := by
        apply String.ext
        simp [String.data_append]
    _ = base ++ "/BTC" := h

theorem symbol_pair_ne_btc (base ex : String) :
    symbol_pair_for base ex ≠ base ++ "/BTC" := by
  unfold symbol_pair_for
  split_ifs with h1 h2 h3 h4 h5 h6 h7 h8 h9 h10 h11 <;>
    first
      | (subst_vars; decide)
      | (apply append_quote_ne_btc; decide)

/-- C10: every successful BTC-quoted analysis reports as its `symbol` the
venue's USD/USDT symbol pair that was used to fetch the raw token series,
never a `<base>/BTC` pair; the BTC quoting shows up only through
`quote_currency = "BTC"` and `is_calculated = true`. -/
theorem C10_btc_quote_symbol (env : Env) (base : String) (chain preferred : Option String)
    (hok : (fetch_analysis env base "BTC" chain preferred).error = none) :
    ∃ exchange_id, get_exchange_for_asset env base preferred = Except.ok exchange_id
      ∧ (fetch_analysis env base "BTC" chain preferred).symbol
          = some (symbol_pair_for base exchange_id)
      ∧ symbol_pair_for base exchange_id ≠ base ++ "/BTC"
      ∧ (fetch_analysis env base "BTC" chain preferred).quote_currency = some "BTC"
      ∧ (fetch_analysis env base "BTC" chain preferred).is_calculated = some true := by
  simp only [fetch_analysis] at hok ⊢
  split at hok
  · simp at hok
  · rename_i exid heq
    refine ⟨exid, heq, ?_⟩
    rw [if_pos trivial] at hok ⊢
    split at hok
    · simp [error_on] at hok
    · rename_i token_closes htok
      split at hok
      · simp at hok
      · rename_i hne
        rw [if_neg hne]
        split at hok
        · simp [error_on] at hok
        · rename_i btc_closes hbtc
          split at hok
          · simp [error_on] at hok
          · rename_i hz
            rw [if_neg hz]
            unfold compute_trend at hok ⊢
            split at hok
            · exact ⟨by simp [trend_success], symbol_pair_ne_btc base exid,
                by simp [trend_success], by simp [trend_success]⟩
            · simp [error_on] at hok

theorem get_trend_analysis_fresh (env : Env) (base quote : String)
    (chain preferred : Option String) (st : CacheStore TrendResult) (now : Nat)
    (h : List.lookup (base ++ "_" ++ quote) st = none) :
    get_trend_analysis env base quote chain preferred st now
      = (fetch_analysis env base quote chain preferred,
         (base ++ "_" ++ quote, fetch_analysis env base quote chain preferred, now) :: st) := by
  unfold get_trend_analysis get_cached_data
  rw [h]
  rfl

theorem process_asset_btc (env : Env) (chain : Option String)
    (st : CacheStore TrendResult) (now : Nat)
    (h1 : List.lookup ("BTC" ++ "_" ++ "USD") st = none) :
    process_asset env ("BTC", chain) st now
      = ({ asset := "BTC", chain := chain,
           usdt := fetch_analysis env "BTC" "USD" chain none,
           btc := { symbol := some "BTC/BTC", error := some "Same asset" } },
         ("BTC" ++ "_" ++ "USD", fetch_analysis env "BTC" "USD" chain none, now) :: st) := by
  unfold process_asset
  rw [if_pos rfl]
  rw [get_trend_analysis_fresh env "BTC" "USD" chain none st now h1]

theorem process_asset_other (env : Env) (name : String) (chain : Option String)
    (st : CacheStore TrendResult) (now : Nat) (hb : name ≠ "BTC")
    (h1 : List.lookup (name ++ "_" ++ "USD") st = none)
    (h2 : List.lookup (name ++ "_" ++ "BTC")
        ((name ++ "_" ++ "USD", fetch_analysis env name "USD" chain none, now) :: st) = none) :
    process_asset env (name, chain) st now
      = ({ asset := name, chain := chain,
           usdt := fetch_analysis env name "USD" chain none,
           btc := fetch_analysis env name "BTC" chain none },
         (name ++ "_" ++ "BTC", fetch_analysis env name "BTC" chain none, now)
           :: (name ++ "_" ++ "USD", fetch_analysis env name "USD" chain none, now) :: st) := by
  unfold process_asset
  rw [if_neg hb]
  rw [get_trend_analysis_fresh env name "USD" chain none st now h1]
  simp only []
  rw [get_trend_analysis_fresh env name "BTC" chain none _ now h2]

theorem process_portfolio_cons (env : Env) (a : String × Option String)
    (rest : List (String × Option String)) (st : CacheStore TrendResult) (now : Nat) :
    process_portfolio env (a :: rest) st now
      = ((process_asset env a st now).1
            :: (process_portfolio env rest (process_asset env a st now).2 now).1,
         (process_portfolio env rest (process_asset env a st now).2 now).2) := rfl

theorem process_portfolio_nil (env : Env) (st : CacheStore TrendResult) (now : Nat) :
    process_portfolio env [] st now = ([], st) := rfl

theorem update_cycle_eq (env : Env) (now : Nat) :
    update_cycle env now =
      [ { asset := "BTC", chain := none,
          usdt := fetch_analysis env "BTC" "USD" none none,
          btc := { symbol := some "BTC/BTC", error := some "Same asset" } },
        { asset := "ETH", chain := none,
          usdt := fetch_analysis env "ETH" "USD" none none,
          btc := fetch_analysis env "ETH" "BTC" none none },
        { asset := "SOL", chain := none,
          usdt := fetch_analysis env "SOL" "USD" none none,
          btc := fetch_analysis env "SOL" "BTC" none none },
        { asset := "BANANA", chain := some "ethereum",
          usdt := fetch_analysis env "BANANA" "USD" (some "ethereum") none,
          btc := fetch_analysis env "BANANA" "BTC" (some "ethereum") none },
        { asset := "NATIX", chain := some "solana",
          usdt := fetch_analysis env "NATIX" "USD" (some "solana") none,
          btc := fetch_analysis env "NATIX" "BTC" (some "solana") none },
        { asset := "TIG", chain := some "base",
          usdt := fetch_analysis env "TIG" "USD" (some "base") none,
          btc := fetch_analysis env "TIG" "BTC" (some "base") none },
        { asset := "FAI", chain := some "base",
          usdt := fetch_analysis env "FAI" "USD" (some "base") none,
          btc := fetch_analysis env "FAI" "BTC" (some "base") none } ] := by
  unfold update_cycle portfolio_assets
  rw [process_portfolio_cons, process_asset_btc,
      process_portfolio_cons, process_asset_other env "ETH" none,
      process_portfolio_cons, process_asset_other env "SOL" none,
      process_portfolio_cons, process_asset_other env "BANANA" (some "ethereum"),
      process_portfolio_cons, process_asset_other env "NATIX" (some "solana"),
      process_portfolio_cons, process_asset_other env "TIG" (some "base"),
      process_portfolio_cons, process_asset_other env "FAI" (some "base"),
      process_portfolio_nil]
  all_goals simp +decide [List.lookup]

theorem compute_trend_fields (closes : List ℚ) (hne : closes ≠ []) (base sp q : String)
    (chain : Option String) (ex : String) :
    (compute_trend closes base sp q chain ex).error = none
    ∧ (compute_trend closes base sp q chain ex).current_price.isSome = true
    ∧ (compute_trend closes base sp q chain ex).ema8.isSome = true
    ∧ (compute_trend closes base sp q chain ex).ema20.isSome = true
    ∧ (compute_trend closes base sp q chain ex).is_uptrend.isSome = true := by
  obtain ⟨c, cs, rfl⟩ := List.exists_cons_of_ne_nil hne
  simp [compute_trend, calculate_ema, trend_success]

/-- C2: in one `/update` cycle, an asset whose every fallback venue fails to
connect (here NATIX with kucoin, gate and mexc all failing `load_markets`)
yields a `TrendResult` with a non-empty error string and no `current_price`
field, in both its USD and BTC slots; and the later assets of the same cycle
are still processed — TIG, whose venue serves data, gets fully populated USD
and BTC results. -/
theorem C2_failure_isolation (env : Env) (now : Nat) (tig_closes btc_closes : List ℚ)
    (h1 : env.load_markets "kucoin" = false) (h2 : env.load_markets "gate" = false)
    (h3 : env.load_markets "mexc" = false)
    (h4 : env.fetch "xt" "TIG/USDT" = Except.ok tig_closes) (h5 : tig_closes ≠ [])
    (h6 : env.fetch "coinbase" "BTC/USD" = Except.ok btc_closes) (h7 : btc_closes ≠ [])
    (h8 : ∀ i, i < btc_closes.length → btc_closes.getD i 0 ≠ 0) :
    (∃ fr, (update_cycle env now).get? 4 = some fr ∧ fr.asset = "NATIX"
      ∧ (∃ msg, fr.usdt.error = some msg ∧ msg ≠ "") ∧ fr.usdt.current_price = none
      ∧ (∃ msg, fr.btc.error = some msg ∧ msg ≠ "") ∧ fr.btc.current_price = none)
    ∧ (∃ tr, (update_cycle env now).get? 5 = some tr ∧ tr.asset = "TIG"
      ∧ tr.usdt.error = none ∧ tr.usdt.current_price.isSome = true
      ∧ tr.usdt.ema8.isSome = true ∧ tr.usdt.ema20.isSome = true
      ∧ tr.usdt.is_uptrend.isSome = true
      ∧ tr.btc.error = none ∧ tr.btc.current_price.isSome = true) := by
  have hnatix : ∀ q : String, q ≠ "BTC" →
      fetch_analysis env "NATIX" q (some "solana") none
        = { symbol := some ("NATIX" ++ "/" ++ q),
            error := some ("Could not connect to any exchange for " ++ "NATIX"),
            chain := some (some "solana") } := by
    intro q hq
    simp [fetch_analysis, get_exchange_for_asset, tryExchanges, h1, h2, h3]
  have hnatixB : fetch_analysis env "NATIX" "BTC" (some "solana") none
      = { symbol := some ("NATIX" ++ "/" ++ "BTC"),
          error := some ("Could not connect to any exchange for " ++ "NATIX"),
          chain := some (some "solana") } := by
    simp [fetch_analysis, get_exchange_for_asset, tryExchanges, h1, h2, h3]
  have htigU : fetch_analysis env "TIG" "USD" (some "base") none
      = compute_trend tig_closes "TIG" "TIG/USDT" "USD" (some "base") "xt" := by
    simp +decide [fetch_analysis, get_exchange_for_asset, symbol_pair_for, h4, h5]
  have htigB : fetch_analysis env "TIG" "BTC" (some "base") none
      = compute_trend (crossRate tig_closes btc_closes) "TIG" "TIG/USDT" "BTC"
          (some "base") "xt" := by
    simp +decide [fetch_analysis, get_exchange_for_asset, symbol_pair_for, h4, h5, h6]
    intro x hx1 hx2 hz
    exact absurd (show btc_closes.getD x 0 = 0 by simpa using hz) (h8 x hx2)
  have hcr : crossRate tig_closes btc_closes ≠ [] := by
    have hlen : (crossRate tig_closes btc_closes).length
        = min tig_closes.length btc_closes.length := by simp [crossRate]
    intro hnil
    rw [hnil] at hlen
    have l5 : 0 < tig_closes.length := List.length_pos.mpr h5
    have l7 : 0 < btc_closes.length := List.length_pos.mpr h7
    simp at hlen
    omega
  rw [update_cycle_eq]
  constructor
  · refine ⟨_, rfl, rfl, ?_, ?_, ?_, ?_⟩
    · exact ⟨_, by rw [hnatix "USD" (by decide)], by decide⟩
    · rw [hnatix "USD" (by decide)]
    · exact ⟨_, by rw [hnatixB], by decide⟩
    · rw [hnatixB]
  · obtain ⟨e1, e2, e3, e4, e5⟩ := compute_trend_fields tig_closes h5 "TIG" "TIG/USDT" "USD" (some "base") "xt"
    obtain ⟨f1, f2, f3, f4, f5⟩ := compute_trend_fields (crossRate tig_closes btc_closes) hcr
      "TIG" "TIG/USDT" "BTC" (some "base") "xt"
    exact ⟨_, rfl, rfl, by rw [htigU]; exact e1, by rw [htigU]; exact e2,
      by rw [htigU]; exact e3, by rw [htigU]; exact e4, by rw [htigU]; exact e5,
      by rw [htigB]; exact f1, by rw [htigB]; exact f2⟩

theorem C2_failure_isolation_witness :
    sampleEnv.load_markets "kucoin" = false
    ∧ sampleEnv.fetch "xt" "TIG/USDT" = Except.ok [2, 4]
    ∧ sampleEnv.fetch "coinbase" "BTC/USD" = Except.ok [8, 16]
    ∧ (∃ fr, (update_cycle sampleEnv 0).get? 4 = some fr ∧ fr.asset = "NATIX"
        ∧ (∃ msg, fr.usdt.error = some msg ∧ msg ≠ "") ∧ fr.usdt.current_price = none)
    ∧ (∃ tr, (update_cycle sampleEnv 0).get? 5 = some tr ∧ tr.asset = "TIG"
        ∧ tr.usdt.error = none ∧ tr.btc.error = none) := by
  obtain ⟨⟨fr, a1, a2, a3, a4, a5, a6⟩, ⟨tr, b1, b2, b3, b4, b5, b6, b7, b8, b9⟩⟩ :=
    C2_failure_isolation sampleEnv 0 [2, 4] [8, 16] (by decide) (by decide) (by decide)
      rfl (by decide) rfl (by decide) (by decide)
  exact ⟨by decide, rfl, rfl, ⟨fr, a1, a2, a3, a4⟩, ⟨tr, b1, b2, b3, b8⟩⟩

theorem C10_btc_quote_symbol_witness :
    (fetch_analysis sampleEnv "ETH" "BTC" none none).error = none
    ∧ ∃ exchange_id, get_exchange_for_asset sampleEnv "ETH" none = Except.ok exchange_id
      ∧ (fetch_analysis sampleEnv "ETH" "BTC" none none).symbol
          = some (symbol_pair_for "ETH" exchange_id)
      ∧ symbol_pair_for "ETH" exchange_id ≠ "ETH" ++ "/BTC"
      ∧ (fetch_analysis sampleEnv "ETH" "BTC" none none).quote_currency = some "BTC"
      ∧ (fetch_analysis sampleEnv "ETH" "BTC" none none).is_calculated = some true :=
  ⟨rfl, C10_btc_quote_symbol sampleEnv "ETH" none none rfl⟩
